import Mathlib

/-!
Shallow embedding of `sysexecution/orders/broker_orders.py` (pysystemtrade):
the broker-level execution order record, its flexible constructor pipeline
(argument splitting, type resolution, legacy multi-leg price salvage,
contract-date sorting), dictionary deserialization, and fill reconciliation.

External collaborators (`base_orders`, `trade_qty`, `tradeable_object`,
`syscore`) are not part of the given source; definitions embedding them are
marked `Modelled from the spec:` and follow the specification's description
of their boundary behaviour.

Conventions: Python `float` prices are embedded as `Rat`; Python `None` /
scalar / per-leg-list price values as the inductive `PyPrice`; datetimes as
abstract `Option Nat` timestamps; strings as `List Char`; raised exceptions
as `Except OrderError`.
-/

deriving instance DecidableEq for Except

namespace BrokerOrders

/-- Errors raised (or returned) by the construction pipeline. -/
inductive OrderError where
  | argumentShape (arity : Nat)
  | parseAmbiguity
  | typeErr
  | keyParse
  | indexErr
  | keyError (key : List Char)
deriving DecidableEq, Repr

/-- Python price value: `None`, a scalar float, or a legacy per-leg list. -/
inductive PyPrice where
  | none
  | scalar (x : Rat)
  | legs (xs : List Rat)
deriving DecidableEq, Repr

/-- Value stored under the `leg_filled_price` key of `order_info`: either an
actual list of per-leg prices, or (after the buggy property setter runs) the
Python builtin class object `list` itself. -/
inductive PyObject where
  | listOfRat (xs : List Rat)
  | builtinListType
deriving DecidableEq, Repr

/-- Trade / fill constructor input: a bare int or a list of ints
(the docstring: "trade, list of int" or a single int for one leg). -/
inductive QtyInput where
  | int (n : Int)
  | list (xs : List Int)
deriving DecidableEq, Repr

/-- Modelled from the spec: the trade-quantity collaborator coerces a bare
int into a one-leg list and keeps a list as is. -/
def QtyInput.toList : QtyInput → List Int
  | .int n => [n]
  | .list xs => xs

/-- Positional argument value for the flexible constructor call. -/
inductive PyVal where
  | str (s : List Char)
  | qty (q : QtyInput)
  | contracts (cs : List (List Char))
deriving DecidableEq, Repr

/-- Internal order id, or the `no_order_id` sentinel. -/
inductive OrderIdField where
  | noId
  | anId (n : Int)
deriving DecidableEq, Repr

/-- Parent order id, or the `no_parent` sentinel. -/
inductive ParentField where
  | noParent
  | aParent (n : Int)
deriving DecidableEq, Repr

/-- Child order ids, or the `no_children` sentinel. -/
inductive ChildrenField where
  | noChildren
  | someChildren (l : List Int)
deriving DecidableEq, Repr

/-- Modelled from the spec: `none_to_object` from `syscore.genutils` turns a
stored Python `None` into the `no_order_id` sentinel. -/
def noneToOrderId : Option Int → OrderIdField
  | Option.none => .noId
  | Option.some n => .anId n

/-- Modelled from the spec: `none_to_object` for the parent field. -/
def noneToParent : Option Int → ParentField
  | Option.none => .noParent
  | Option.some n => .aParent n

/-- Modelled from the spec: `none_to_object` for the children field. -/
def noneToChildren : Option (List Int) → ChildrenField
  | Option.none => .noChildren
  | Option.some l => .someChildren l

/-- Order type tag (market / limit / balance_trade), stored as its string. -/
structure brokerOrderType where
  type_string : List Char
deriving DecidableEq, Repr

/-- Modelled from the spec: reconstructing the order type tag from the
stored string; a stored `None` yields the empty tag. -/
def brokerOrderType.fromStored : Option (List Char) → brokerOrderType
  | Option.none => ⟨[]⟩
  | Option.some s => ⟨s⟩

/-- Split a character list on a separator character; mirrors Python
`str.split(sep)` (used by the tradeable-object key parser). -/
def splitOnChar (sep : Char) : List Char → List (List Char)
  | [] => [[]]
  | c :: cs =>
    let rest := splitOnChar sep cs
    if c = sep then [] :: rest
    else
      match rest with
      | [] => [[c]]
      | h :: t => (c :: h) :: t

/-- Join a list of character lists with a separator character; mirrors
Python `sep.join(parts)`. -/
def joinSep (sep : Char) : List (List Char) → List Char
  | [] => []
  | [x] => x
  | x :: y :: t => x ++ sep :: joinSep sep (y :: t)

/-- Modelled from the spec: the tradeable-object collaborator — a strategy
name, an instrument code, and one-or-more contract dates (`YYYYMM`
strings), which identify the legs. -/
structure futuresContractStrategy where
  strategy_name : List Char
  instrument_code : List Char
  contract_dates : List (List Char)
deriving DecidableEq, Repr

/-- Modelled from the spec: key-string parsing by the tradeable-object
collaborator. A composite key is `strategy/instrument/contracts` and the
contracts component separates the per-leg dates by an underscore
(docstring: "If expressed inside a longer string, separate contract str
by '_'"). -/
def futuresContractStrategy.from_key (key : List Char) :
    Except OrderError futuresContractStrategy :=
  match splitOnChar '/' key with
  | [s, i, c] => .ok ⟨s, i, splitOnChar '_' c⟩
  | _ => .error .keyParse

/-- Lexicographic comparison of two date strings (character lists). -/
def dateLe : List Char → List Char → Bool
  | [], _ => true
  | _ :: _, [] => false
  | a :: as, b :: bs => if a = b then dateLe as bs else decide (a < b)

/-- Modelled from the spec: per-leg sort-index derivation by the
tradeable-object collaborator — the permutation of leg indices given by
sorting the contract dates into ascending order. -/
def sortIdxOfDates (dates : List (List Char)) : List Nat :=
  List.insertionSort
    (fun i j => dateLe (dates.getD i []) (dates.getD j []) = true)
    (List.range dates.length)

/-- Modelled from the spec: `sort_idx_for_contracts` of the tradeable
object. -/
def futuresContractStrategy.sort_idx_for_contracts
    (f : futuresContractStrategy) : List Nat :=
  sortIdxOfDates f.contract_dates

/-- Apply an index permutation to a list, Python `[xs[i] for i in idx]`;
an out-of-range index raises (returns `none`). -/
def applyIdx (xs : List α) : List Nat → Option (List α)
  | [] => Option.some []
  | i :: is =>
    match xs.get? i, applyIdx xs is with
    | Option.some x, Option.some ys => Option.some (x :: ys)
    | _, _ => Option.none

/-- Turn a possible index error into the raised exception. -/
def ofIdx (o : Option α) : Except OrderError α :=
  match o with
  | Option.none => .error .indexErr
  | Option.some x => .ok x

/-- Modelled from the spec: `sort_contracts_with_idx` — permutation
application to the tradeable object's own leg list. -/
def futuresContractStrategy.sort_contracts_with_idx
    (f : futuresContractStrategy) (idx : List Nat) :
    Except OrderError futuresContractStrategy := do
  let dates ← ofIdx (applyIdx f.contract_dates idx)
  .ok { f with contract_dates := dates }

/-- Modelled from the spec (open question noted there): the external
"collapse legacy per-leg list to one representative scalar" reducer, keyed
by the trade sequence. A value already scalar (or absent) passes through
unchanged; the exact weighting rule is not shown in the given source, so a
magnitude-weighted mean is used — no claim below depends on the weights. -/
def resolve_multi_leg_price_to_single_price (trade_list : List Int)
    (price_list : PyPrice) : PyPrice :=
  match price_list with
  | .none => .none
  | .scalar x => .scalar x
  | .legs xs =>
    let pairs := List.zip trade_list xs
    let num := pairs.foldl (fun acc p => acc + (p.1.natAbs : Rat) * p.2) 0
    let den := pairs.foldl (fun acc p => acc + (p.1.natAbs : Rat)) 0
    .scalar (num / den)

/-- Modelled from the spec: the base order's trade/fill normalizer
`resolve_inputs_to_order` — coerces `trade` and `fill` into the canonical
per-leg quantity sequence (an absent fill becomes a zero sequence of the
trade's length), and coerces `filled_price` into canonical scalar form (the
source comments that this call "turns the price into a float"). -/
def resolve_inputs_to_order (trade : QtyInput) (fill : Option QtyInput)
    (filled_price : PyPrice) : List Int × List Int × PyPrice :=
  let rt := trade.toList
  let rf :=
    match fill with
    | Option.none => rt.map (fun _ => 0)
    | Option.some q => q.toList
  (rt, rf, resolve_multi_leg_price_to_single_price rt filled_price)

/-- Modelled from the spec (invariant I2): the trade-quantity
collaborator's fill-vs-trade magnitude comparison — per paired leg, the
fill magnitude does not exceed the trade magnitude and the fill direction
matches the trade direction. -/
def fill_less_than_or_equal_to_desired_trade (trade fill : List Int) : Bool :=
  (List.zip fill trade).all
    (fun p => decide (p.1.natAbs ≤ p.2.natAbs) && decide (0 ≤ p.1 * p.2))

/-- The transient resolution bundle as built by the argument splitter
(fields still in raw input form). -/
structure brokerOrderKeyArguments where
  tradeable_object : futuresContractStrategy
  trade : QtyInput
  fill : Option QtyInput
  filled_price : PyPrice
  leg_filled_price : List Rat
  mid_price : PyPrice
  side_price : PyPrice
  offside_price : PyPrice
deriving DecidableEq, Repr

/-- The resolution bundle after the type-resolution pass. -/
structure resolvedKeyArguments where
  tradeable_object : futuresContractStrategy
  trade : List Int
  fill : List Int
  filled_price : PyPrice
  leg_filled_price : List Rat
  mid_price : PyPrice
  side_price : PyPrice
  offside_price : PyPrice
deriving DecidableEq, Repr

/-- Embedding of `calculate_prices_with_possible_legs`: if the original
(pre-coercion) filled price is a scalar or absent nothing is salvaged; else
if no explicit `leg_filled_price` was supplied the original per-leg list is
copied into `leg_filled_price` verbatim; else the shape is ambiguous and an
exception is raised ("Not sure how to parse order"). The three submission
prices are then collapsed to canonical scalar form. -/
def calculate_prices_with_possible_legs (trade : List Int)
    (leg_filled_price : List Rat) (mid_price side_price offside_price : PyPrice)
    (original_filled_price : PyPrice) :
    Except OrderError (List Rat × PyPrice × PyPrice × PyPrice) := do
  let leg_filled_price ←
    match original_filled_price with
    | .scalar _ => Except.ok leg_filled_price
    | .none => Except.ok leg_filled_price
    | .legs xs =>
      if leg_filled_price = [] then Except.ok xs
      else Except.error OrderError.parseAmbiguity
  .ok (leg_filled_price,
    resolve_multi_leg_price_to_single_price trade mid_price,
    resolve_multi_leg_price_to_single_price trade side_price,
    resolve_multi_leg_price_to_single_price trade offside_price)

/-- Embedding of
`brokerOrderKeyArguments.resolve_inputs_to_order_with_key_arguments`: the
original filled price is snapshotted before the coercion, then trade, fill
and filled price are normalized, then the leg/mid/side/offside prices are
put into canonical form. -/
def brokerOrderKeyArguments.resolve_inputs_to_order_with_key_arguments
    (ka : brokerOrderKeyArguments) : Except OrderError resolvedKeyArguments := do
  let original_filled_price := ka.filled_price
  let r := resolve_inputs_to_order ka.trade ka.fill ka.filled_price
  let p ← calculate_prices_with_possible_legs r.1 ka.leg_filled_price
    ka.mid_price ka.side_price ka.offside_price original_filled_price
  .ok ⟨ka.tradeable_object, r.1, r.2.1, r.2.2, p.1, p.2.1, p.2.2.1, p.2.2.2⟩

/-- Embedding of
`brokerOrderKeyArguments.sort_inputs_by_contract_date_order`: one sort
permutation is derived from the tradeable object's contract dates and that
same permutation is applied to the trade sequence, the fill sequence, and
the tradeable object's leg list. -/
def resolvedKeyArguments.sort_inputs_by_contract_date_order
    (ka : resolvedKeyArguments) : Except OrderError resolvedKeyArguments := do
  let sort_order := ka.tradeable_object.sort_idx_for_contracts
  let trade ← ofIdx (applyIdx ka.trade sort_order)
  let fill ← ofIdx (applyIdx ka.fill sort_order)
  let tradeable ← ka.tradeable_object.sort_contracts_with_idx sort_order
  .ok { ka with trade := trade, fill := fill, tradeable_object := tradeable }

/-- Extract the expected string positional argument. -/
def expectStr : PyVal → Except OrderError (List Char)
  | .str s => .ok s
  | _ => .error .typeErr

/-- Extract the expected trade-quantity positional argument. -/
def expectQty : PyVal → Except OrderError QtyInput
  | .qty q => .ok q
  | _ => .error .typeErr

/-- Extract the contract-id positional argument: a single date string (one
leg) or a list of date strings; the tradeable-object constructor normalizes
a single string to a one-leg list (modelled from the spec). -/
def expectContractId : PyVal → Except OrderError (List (List Char))
  | .str s => .ok [s]
  | .contracts cs => .ok cs
  | _ => .error .typeErr

/-- Embedding of `split_broker_order_args`: a 2-positional-argument call
carries a composite key string and the trade; a 4-positional-argument call
carries strategy, instrument, contract id(s) and the trade; any other
positional arity raises. -/
def split_broker_order_args (args : List PyVal) (fill : Option QtyInput)
    (filled_price : PyPrice) (leg_filled_price : List Rat)
    (mid_price side_price offside_price : PyPrice) :
    Except OrderError brokerOrderKeyArguments :=
  if args.length = 2 then do
    let key ← expectStr (args.getD 0 (.str []))
    let tradeable_object ← futuresContractStrategy.from_key key
    let trade ← expectQty (args.getD 1 (.str []))
    .ok ⟨tradeable_object, trade, fill, filled_price, leg_filled_price,
      mid_price, side_price, offside_price⟩
  else if args.length = 4 then do
    let strategy ← expectStr (args.getD 0 (.str []))
    let instrument ← expectStr (args.getD 1 (.str []))
    let contract_id ← expectContractId (args.getD 2 (.str []))
    let trade ← expectQty (args.getD 3 (.str []))
    .ok ⟨⟨strategy, instrument, contract_id⟩, trade, fill, filled_price,
      leg_filled_price, mid_price, side_price, offside_price⟩
  else .error (.argumentShape args.length)

/-- Embedding of `from_broker_order_args_to_resolved_args`: split the
positional arguments, resolve input types, then sort everything by
contract-date order. -/
def from_broker_order_args_to_resolved_args (args : List PyVal)
    (fill : Option QtyInput) (filled_price : PyPrice)
    (leg_filled_price : List Rat) (mid_price side_price offside_price : PyPrice) :
    Except OrderError resolvedKeyArguments := do
  let ka ← split_broker_order_args args fill filled_price leg_filled_price
    mid_price side_price offside_price
  let ka1 ← ka.resolve_inputs_to_order_with_key_arguments
  ka1.sort_inputs_by_contract_date_order

/-- The canonical broker order record: the base order's fields plus the
broker-specific `order_info` entries, flattened to named fields (the
`order_info` dict stores exactly these fixed keys). -/
structure brokerOrder where
  tradeable_object : futuresContractStrategy
  trade : List Int
  fill : List Int
  filled_price : PyPrice
  fill_datetime : Option Nat
  locked : Bool
  order_id : OrderIdField
  parent : ParentField
  children : ChildrenField
  active : Bool
  order_type : brokerOrderType
  algo_used : List Char
  submit_datetime : Option Nat
  limit_price : Option Rat
  manual_fill : Bool
  calendar_spread_order : Bool
  side_price : PyPrice
  mid_price : PyPrice
  offside_price : PyPrice
  algo_comment : List Char
  broker : List Char
  broker_account : List Char
  broker_permid : List Char
  broker_tempid : List Char
  broker_clientid : List Char
  commission : Rat
  roll_order : Bool
  leg_filled_price : PyObject
deriving DecidableEq, Repr

/-- Keyword arguments of `brokerOrder.__init__`, with the source's default
values; `kwargs_ignored` carries any unrecognized extra keyword arguments,
which the constructor accepts and never reads. -/
structure BrokerOrderKwargs where
  fill : Option QtyInput := Option.none
  filled_price : PyPrice := .none
  fill_datetime : Option Nat := Option.none
  leg_filled_price : List Rat := []
  locked : Bool := false
  order_id : OrderIdField := .noId
  parent : ParentField := .noParent
  children : ChildrenField := .noChildren
  active : Bool := true
  order_type : brokerOrderType := ⟨['m', 'a', 'r', 'k', 'e', 't']⟩
  algo_used : List Char := []
  algo_comment : List Char := []
  limit_price : Option Rat := Option.none
  submit_datetime : Option Nat := Option.none
  side_price : PyPrice := .none
  mid_price : PyPrice := .none
  offside_price : PyPrice := .none
  roll_order : Bool := false
  broker : List Char := []
  broker_account : List Char := []
  broker_clientid : List Char := []
  broker_permid : List Char := []
  broker_tempid : List Char := []
  commission : Rat := 0
  manual_fill : Bool := false
  kwargs_ignored : List (List Char × PyVal) := []
deriving DecidableEq, Repr

/-- The record assembled at the end of `brokerOrder.__init__`: the resolved
key arguments fill the base-order fields, the calendar-spread flag is
derived from the resolved trade length (`False` iff the length is 1), and
the remaining keyword arguments fill the `order_info` entries. -/
def brokerOrder.build (ka : resolvedKeyArguments) (kw : BrokerOrderKwargs) :
    brokerOrder :=
  let calendar_spread_order := decide (ka.trade.length ≠ 1)
  { tradeable_object := ka.tradeable_object
    trade := ka.trade
    fill := ka.fill
    filled_price := ka.filled_price
    fill_datetime := kw.fill_datetime
    locked := kw.locked
    order_id := kw.order_id
    parent := kw.parent
    children := kw.children
    active := kw.active
    order_type := kw.order_type
    algo_used := kw.algo_used
    submit_datetime := kw.submit_datetime
    limit_price := kw.limit_price
    manual_fill := kw.manual_fill
    calendar_spread_order := calendar_spread_order
    side_price := ka.side_price
    mid_price := ka.mid_price
    offside_price := ka.offside_price
    algo_comment := kw.algo_comment
    broker := kw.broker
    broker_account := kw.broker_account
    broker_permid := kw.broker_permid
    broker_tempid := kw.broker_tempid
    broker_clientid := kw.broker_clientid
    commission := kw.commission
    roll_order := kw.roll_order
    leg_filled_price := .listOfRat ka.leg_filled_price }

/-- Embedding of `brokerOrder.__init__`: resolve the positional arguments
into the canonical key-arguments bundle and build the record;
`kw.kwargs_ignored` (the `**kwargs_ignored` parameter) is accepted and
never read. -/
def brokerOrder.make (args : List PyVal) (kw : BrokerOrderKwargs) :
    Except OrderError brokerOrder := do
  let ka ← from_broker_order_args_to_resolved_args args kw.fill
    kw.filled_price kw.leg_filled_price kw.mid_price kw.side_price
    kw.offside_price
  .ok (brokerOrder.build ka kw)

/-- Property setter for `limit_price`. -/
def brokerOrder.set_limit_price (o : brokerOrder) (v : Option Rat) :
    brokerOrder := { o with limit_price := v }

/-- Property setter for `submit_datetime`. -/
def brokerOrder.set_submit_datetime (o : brokerOrder) (v : Option Nat) :
    brokerOrder := { o with submit_datetime := v }

/-- Property setter for `manual_fill`. -/
def brokerOrder.set_manual_fill (o : brokerOrder) (v : Bool) :
    brokerOrder := { o with manual_fill := v }

/-- Property setter for `algo_comment`. -/
def brokerOrder.set_algo_comment (o : brokerOrder) (v : List Char) :
    brokerOrder := { o with algo_comment := v }

/-- Property setter for `broker_permid`. -/
def brokerOrder.set_broker_permid (o : brokerOrder) (v : List Char) :
    brokerOrder := { o with broker_permid := v }

/-- Property setter for `broker_clientid`. -/
def brokerOrder.set_broker_clientid (o : brokerOrder) (v : List Char) :
    brokerOrder := { o with broker_clientid := v }

/-- Property setter for `broker_tempid`. -/
def brokerOrder.set_broker_tempid (o : brokerOrder) (v : List Char) :
    brokerOrder := { o with broker_tempid := v }

/-- Property setter for `commission`. -/
def brokerOrder.set_commission (o : brokerOrder) (v : Rat) :
    brokerOrder := { o with commission := v }

/-- Property setter for `leg_filled_price`: the source line is
`self.order_info["leg_filled_price"] = list`, which stores the Python
builtin class object `list` itself, not the setter's argument. -/
def brokerOrder.set_leg_filled_price (o : brokerOrder) (_v : PyObject) :
    brokerOrder := { o with leg_filled_price := PyObject.builtinListType }

/-- Modelled from the spec: the base order's fill-application routine —
copies fill quantities, filled price, and fill timestamp into the order. -/
def brokerOrder.fill_order (o : brokerOrder) (fill : List Int)
    (filled_price : PyPrice) (fill_datetime : Option Nat) : brokerOrder :=
  { o with
    fill := fill
    filled_price := filled_price
    fill_datetime := fill_datetime }

/-- Result markers `fill_exceeds_trade` and `success` from
`syscore.objects`. -/
inductive ExecResult where
  | fill_exceeds_trade
  | success
deriving DecidableEq, Repr

/-- Embedding of
`brokerOrder.add_execution_details_from_matched_broker_order`: if the
matched order's fill exceeds this order's trade on some paired leg, return
the `fill_exceeds_trade` marker with the order untouched; otherwise apply
the fill, then copy commission, broker permanent id, algo comment, and
per-leg filled prices (through the property setters) and return `success`.
The pair returned is (result marker, order state after the call). -/
def brokerOrder.add_execution_details_from_matched_broker_order
    (o matched_broker_order : brokerOrder) : ExecResult × brokerOrder :=
  let fill_qty_okay := fill_less_than_or_equal_to_desired_trade o.trade
    matched_broker_order.fill
  if fill_qty_okay = false then (.fill_exceeds_trade, o)
  else
    let o1 := o.fill_order matched_broker_order.fill
      matched_broker_order.filled_price matched_broker_order.fill_datetime
    let o2 := o1.set_commission matched_broker_order.commission
    let o3 := o2.set_broker_permid matched_broker_order.broker_permid
    let o4 := o3.set_algo_comment matched_broker_order.algo_comment
    let o5 := o4.set_leg_filled_price matched_broker_order.leg_filled_price
    (.success, o5)

/-- A persisted order dictionary: an outer `Option` marks whether the key
is present at all; for keys that may be stored as Python `None`, an inner
`Option` marks that. The keys not popped by `from_dict` are the
`order_info` entries, forwarded as keyword arguments (absent key = keyword
argument not passed, so the constructor default applies); `extra_entries`
holds any remaining unrecognized keys forwarded into `**kwargs_ignored`. -/
structure OrderDict where
  trade : Option QtyInput
  key : Option (List Char)
  fill : Option (Option QtyInput)
  filled_price : Option PyPrice
  fill_datetime : Option (Option Nat)
  locked : Option Bool
  order_id : Option (Option Int)
  parent : Option (Option Int)
  children : Option (Option (List Int))
  active : Option Bool
  order_type : Option (Option (List Char))
  algo_used : Option (List Char)
  submit_datetime : Option (Option Nat)
  limit_price : Option (Option Rat)
  manual_fill : Option Bool
  side_price : Option PyPrice
  mid_price : Option PyPrice
  offside_price : Option PyPrice
  algo_comment : Option (List Char)
  broker : Option (List Char)
  broker_account : Option (List Char)
  broker_permid : Option (List Char)
  broker_tempid : Option (List Char)
  broker_clientid : Option (List Char)
  commission : Option Rat
  roll_order : Option Bool
  leg_filled_price : Option (List Rat)
  extra_entries : List (List Char × PyVal)
deriving DecidableEq, Repr

/-- Python `dict.pop(key)` without a default: raises `KeyError` when the
key is absent. -/
def popKey (v : Option α) (key : List Char) : Except OrderError α :=
  match v with
  | Option.none => .error (.keyError key)
  | Option.some x => .ok x

/-- Embedding of `brokerOrder.from_dict`: pops the required keys (raising a
`KeyError` when one is absent), converts stored `None` ids to the
sentinels via `none_to_object`, reconstructs the order type tag from the
stored `order_type` string (popped with default `None`), and passes the
remaining entries as keyword arguments to the constructor. -/
def brokerOrder.from_dict (d : OrderDict) : Except OrderError brokerOrder := do
  let trade ← popKey d.trade ['t', 'r', 'a', 'd', 'e']
  let key ← popKey d.key ['k', 'e', 'y']
  let fill ← popKey d.fill ['f', 'i', 'l', 'l']
  let filled_price ← popKey d.filled_price
    ['f', 'i', 'l', 'l', 'e', 'd', '_', 'p', 'r', 'i', 'c', 'e']
  let fill_datetime ← popKey d.fill_datetime
    ['f', 'i', 'l', 'l', '_', 'd', 'a', 't', 'e', 't', 'i', 'm', 'e']
  let locked ← popKey d.locked ['l', 'o', 'c', 'k', 'e', 'd']
  let order_id_raw ← popKey d.order_id
    ['o', 'r', 'd', 'e', 'r', '_', 'i', 'd']
  let parent_raw ← popKey d.parent ['p', 'a', 'r', 'e', 'n', 't']
  let children_raw ← popKey d.children
    ['c', 'h', 'i', 'l', 'd', 'r', 'e', 'n']
  let active ← popKey d.active ['a', 'c', 't', 'i', 'v', 'e']
  let order_type := brokerOrderType.fromStored (d.order_type.getD Option.none)
  brokerOrder.make [.str key, .qty trade]
    { fill := fill
      filled_price := filled_price
      fill_datetime := fill_datetime
      leg_filled_price := d.leg_filled_price.getD []
      locked := locked
      order_id := noneToOrderId order_id_raw
      parent := noneToParent parent_raw
      children := noneToChildren children_raw
      active := active
      order_type := order_type
      algo_used := d.algo_used.getD []
      algo_comment := d.algo_comment.getD []
      limit_price := d.limit_price.getD Option.none
      submit_datetime := d.submit_datetime.getD Option.none
      side_price := d.side_price.getD .none
      mid_price := d.mid_price.getD .none
      offside_price := d.offside_price.getD .none
      roll_order := d.roll_order.getD false
      broker := d.broker.getD []
      broker_account := d.broker_account.getD []
      broker_clientid := d.broker_clientid.getD []
      broker_permid := d.broker_permid.getD []
      broker_tempid := d.broker_tempid.getD []
      commission := d.commission.getD 0
      manual_fill := d.manual_fill.getD false
      kwargs_ignored := d.extra_entries }

/-- A one-leg broker order with default field values, used as the base of
concrete examples. -/
def blankBrokerOrder : brokerOrder where
  tradeable_object := ⟨['s'], ['i'], [['2', '0', '2', '0', '0', '3']]⟩
  trade := [10]
  fill := [0]
  filled_price := .none
  fill_datetime := Option.none
  locked := false
  order_id := .noId
  parent := .noParent
  children := .noChildren
  active := true
  order_type := ⟨['m', 'a', 'r', 'k', 'e', 't']⟩
  algo_used := []
  submit_datetime := Option.none
  limit_price := Option.none
  manual_fill := false
  calendar_spread_order := false
  side_price := .none
  mid_price := .none
  offside_price := .none
  algo_comment := []
  broker := []
  broker_account := []
  broker_permid := []
  broker_tempid := []
  broker_clientid := []
  commission := 0
  roll_order := false
  leg_filled_price := .listOfRat []

/-- A fully populated persisted order dictionary for a one-leg order, with
the ids stored as Python `None`; used as the base of concrete examples. -/
def exampleOrderDict : OrderDict where
  trade := Option.some (.int 10)
  key := Option.some ['s', '/', 'i', '/', '2', '0', '2', '0', '0', '3']
  fill := Option.some Option.none
  filled_price := Option.some .none
  fill_datetime := Option.some Option.none
  locked := Option.some false
  order_id := Option.some Option.none
  parent := Option.some Option.none
  children := Option.some Option.none
  active := Option.some true
  order_type := Option.some (Option.some ['l', 'i', 'm', 'i', 't'])
  algo_used := Option.some []
  submit_datetime := Option.some Option.none
  limit_price := Option.some Option.none
  manual_fill := Option.some false
  side_price := Option.some .none
  mid_price := Option.some .none
  offside_price := Option.some .none
  algo_comment := Option.some []
  broker := Option.some []
  broker_account := Option.some []
  broker_permid := Option.some []
  broker_tempid := Option.some []
  broker_clientid := Option.some []
  commission := Option.some 0
  roll_order := Option.some false
  leg_filled_price := Option.some []
  extra_entries := []

/-- Fallback order value for extracting concrete construction results. -/
instance : Inhabited brokerOrder := ⟨blankBrokerOrder⟩

/-- Concrete legacy-shaped construction call: positional arguments of the
4-argument form. -/
def legacyArgs : List PyVal :=
  [.str ['s'], .str ['i'], .contracts [['2', '0', '2', '0', '0', '3']],
    .qty (.int 10)]

/-- Concrete legacy-shaped keyword arguments: a per-leg list supplied as
`filled_price`, no explicit `leg_filled_price`. -/
def legacyKw : BrokerOrderKwargs := { filled_price := .legs [(3 : Rat)] }

/-- The key-arguments bundle the splitter produces for `legacyArgs` and
`legacyKw`. -/
def legacyKa0 : brokerOrderKeyArguments :=
  ⟨⟨['s'], ['i'], [['2', '0', '2', '0', '0', '3']]⟩, .int 10, Option.none,
    .legs [(3 : Rat)], [], .none, .none, .none⟩

/-- The order constructed from the concrete legacy-shaped call. -/
def legacyOrder : brokerOrder :=
  ((brokerOrder.make legacyArgs legacyKw).toOption).getD blankBrokerOrder

/-- The order deserialized from the fully populated example dictionary. -/
def exampleDictOrder : brokerOrder :=
  ((brokerOrder.from_dict exampleOrderDict).toOption).getD blankBrokerOrder

/-- Concrete 2-leg spread construction call with the contract dates
supplied out of ascending order (202012 before 202003). -/
def spreadArgs : List PyVal :=
  [.str ['s', '/', 'i', '/', '2', '0', '2', '0', '1', '2', '_',
    '2', '0', '2', '0', '0', '3'], .qty (.list [3, -3])]

/-- The key-arguments bundle the splitter produces for `spreadArgs` with
default keyword arguments. -/
def spreadKa0 : brokerOrderKeyArguments :=
  ⟨⟨['s'], ['i'],
    [['2', '0', '2', '0', '1', '2'], ['2', '0', '2', '0', '0', '3']]⟩,
    .list [3, -3], Option.none, .none, [], .none, .none, .none⟩

/-- The resolved (pre-sort) bundle for `spreadArgs` with default keyword
arguments. -/
def spreadKa1 : resolvedKeyArguments :=
  ⟨⟨['s'], ['i'],
    [['2', '0', '2', '0', '1', '2'], ['2', '0', '2', '0', '0', '3']]⟩,
    [3, -3], [0, 0], .none, [], .none, .none, .none⟩

/-! Helper lemmas about `Except` binds and the construction pipeline. -/

theorem ok_bind {ε α β : Type} (a : α) (f : α → Except ε β) :
    (Except.ok a >>= f) = f a := rfl

theorem error_bind {ε α β : Type} (e : ε) (f : α → Except ε β) :
    ((Except.error e : Except ε α) >>= f) = Except.error e := rfl

theorem bind_ok_elim {ε α β : Type} (x : Except ε α) (f : α → Except ε β)
    (b : β) (h : (x >>= f) = .ok b) : ∃ a, x = .ok a ∧ f a = .ok b := by
  cases x with
  | error e => rw [error_bind] at h; cases h
  | ok a => exact ⟨a, rfl, by rw [ok_bind] at h; exact h⟩

/-- The argument splitter passes every keyword field through into the
bundle unchanged. -/
theorem split_ok_passthrough (args : List PyVal) (f : Option QtyInput)
    (fp : PyPrice) (leg : List Rat) (mid side off : PyPrice)
    (ka : brokerOrderKeyArguments)
    (h : split_broker_order_args args f fp leg mid side off = .ok ka) :
    ka.fill = f ∧ ka.filled_price = fp ∧ ka.leg_filled_price = leg ∧
      ka.mid_price = mid ∧ ka.side_price = side ∧ ka.offside_price = off := by
  unfold split_broker_order_args at h
  split_ifs at h
  · obtain ⟨key, hk, h⟩ := bind_ok_elim _ _ _ h
    obtain ⟨tob, ht, h⟩ := bind_ok_elim _ _ _ h
    obtain ⟨tr, htr, h⟩ := bind_ok_elim _ _ _ h
    cases h
    exact ⟨rfl, rfl, rfl, rfl, rfl, rfl⟩
  · obtain ⟨s, hs, h⟩ := bind_ok_elim _ _ _ h
    obtain ⟨i, hi, h⟩ := bind_ok_elim _ _ _ h
    obtain ⟨c, hc, h⟩ := bind_ok_elim _ _ _ h
    obtain ⟨tr, htr, h⟩ := bind_ok_elim _ _ _ h
    cases h
    exact ⟨rfl, rfl, rfl, rfl, rfl, rfl⟩

/-- The sort pass changes only the trade, fill and leg-list fields. -/
theorem sort_ok_preserves_prices (ka ka2 : resolvedKeyArguments)
    (h : ka.sort_inputs_by_contract_date_order = .ok ka2) :
    ka2.filled_price = ka.filled_price ∧
      ka2.leg_filled_price = ka.leg_filled_price ∧
      ka2.mid_price = ka.mid_price ∧ ka2.side_price = ka.side_price ∧
      ka2.offside_price = ka.offside_price := by
  unfold resolvedKeyArguments.sort_inputs_by_contract_date_order at h
  obtain ⟨t, ht, h⟩ := bind_ok_elim _ _ _ h
  obtain ⟨f, hf, h⟩ := bind_ok_elim _ _ _ h
  obtain ⟨d, hd, h⟩ := bind_ok_elim _ _ _ h
  cases h
  exact ⟨rfl, rfl, rfl, rfl, rfl⟩

/-- A successful construction decomposes into a successful pipeline run
followed by the record builder. -/
theorem make_ok_elim (args : List PyVal) (kw : BrokerOrderKwargs)
    (o : brokerOrder) (h : brokerOrder.make args kw = .ok o) :
    ∃ ka, from_broker_order_args_to_resolved_args args kw.fill
        kw.filled_price kw.leg_filled_price kw.mid_price kw.side_price
        kw.offside_price = .ok ka ∧ o = brokerOrder.build ka kw := by
  unfold brokerOrder.make at h
  obtain ⟨ka, hka, h⟩ := bind_ok_elim _ _ _ h
  cases h
  exact ⟨ka, hka, rfl⟩

/-- The pipeline run of a successful construction decomposes into its
three passes. -/
theorem pipeline_ok_elim (args : List PyVal) (f : Option QtyInput)
    (fp : PyPrice) (leg : List Rat) (mid side off : PyPrice)
    (ka2 : resolvedKeyArguments)
    (h : from_broker_order_args_to_resolved_args args f fp leg mid side off
      = .ok ka2) :
    ∃ ka0 ka1, split_broker_order_args args f fp leg mid side off = .ok ka0 ∧
      ka0.resolve_inputs_to_order_with_key_arguments = .ok ka1 ∧
      ka1.sort_inputs_by_contract_date_order = .ok ka2 := by
  unfold from_broker_order_args_to_resolved_args at h
  obtain ⟨ka0, h0, h⟩ := bind_ok_elim _ _ _ h
  obtain ⟨ka1, h1, h⟩ := bind_ok_elim _ _ _ h
  exact ⟨ka0, ka1, h0, h1, h⟩

/-- C2: for every broker order and matched broker order whose fill exceeds
the order's trade in magnitude on some leg,
`add_execution_details_from_matched_broker_order` returns the
`fill_exceeds_trade` result value (it does not throw) and leaves the order
entirely unmodified. -/
theorem add_execution_details_rejects_overfill_unmodified
    (o matched : brokerOrder)
    (h : fill_less_than_or_equal_to_desired_trade o.trade matched.fill
      = false) :
    o.add_execution_details_from_matched_broker_order matched =
      (ExecResult.fill_exceeds_trade, o) := by
  unfold brokerOrder.add_execution_details_from_matched_broker_order
  simp [h]

theorem add_execution_details_rejects_overfill_unmodified_witness :
    fill_less_than_or_equal_to_desired_trade blankBrokerOrder.trade
      ({ blankBrokerOrder with fill := [15] } : brokerOrder).fill = false ∧
    blankBrokerOrder.add_execution_details_from_matched_broker_order
      { blankBrokerOrder with fill := [15] } =
      (ExecResult.fill_exceeds_trade, blankBrokerOrder) :=
  ⟨by decide,
    add_execution_details_rejects_overfill_unmodified blankBrokerOrder
      { blankBrokerOrder with fill := [15] } (by decide)⟩

/-- C9: for every construction call whose positional argument count is
neither 2 nor 4, construction fails with the argument-shape error, which
propagates to the caller, and no order is produced. -/
theorem make_bad_arity_raises (args : List PyVal) (kw : BrokerOrderKwargs)
    (h2 : args.length ≠ 2) (h4 : args.length ≠ 4) :
    brokerOrder.make args kw =
      .error (OrderError.argumentShape args.length) := by
  unfold brokerOrder.make from_broker_order_args_to_resolved_args
    split_broker_order_args
  rw [if_neg h2, if_neg h4]
  rfl

theorem make_bad_arity_raises_witness :
    ([PyVal.str ['a'], PyVal.str ['b'], PyVal.str ['c']] : List PyVal).length
        ≠ 2 ∧
    ([PyVal.str ['a'], PyVal.str ['b'], PyVal.str ['c']] : List PyVal).length
        ≠ 4 ∧
    brokerOrder.make [PyVal.str ['a'], PyVal.str ['b'], PyVal.str ['c']] {} =
      .error (OrderError.argumentShape 3) :=
  ⟨by decide, by decide,
    make_bad_arity_raises [PyVal.str ['a'], PyVal.str ['b'], PyVal.str ['c']]
      {} (by decide) (by decide)⟩

/-- C10: for every construction call, supplying arbitrary unrecognized
keyword arguments produces no error and yields an order identical in every
field to the one constructed without them: `**kwargs_ignored` is silently
swallowed. -/
theorem make_ignores_unknown_kwargs (args : List PyVal)
    (kw : BrokerOrderKwargs) (ks : List (List Char × PyVal))
    (o : brokerOrder) (h : brokerOrder.make args kw = .ok o) :
    brokerOrder.make args { kw with kwargs_ignored := ks } = .ok o := h

theorem make_ignores_unknown_kwargs_witness :
    brokerOrder.make
        [PyVal.str ['s', '/', 'i', '/', '2', '0', '2', '0', '0', '3'],
          PyVal.qty (.int 10)] {} = .ok blankBrokerOrder ∧
    brokerOrder.make
        [PyVal.str ['s', '/', 'i', '/', '2', '0', '2', '0', '0', '3'],
          PyVal.qty (.int 10)]
        { ({} : BrokerOrderKwargs) with
          kwargs_ignored := [(['x'], PyVal.qty (.int 7))] } =
      .ok blankBrokerOrder :=
  ⟨by decide,
    make_ignores_unknown_kwargs
      [PyVal.str ['s', '/', 'i', '/', '2', '0', '2', '0', '0', '3'],
        PyVal.qty (.int 10)] {} [(['x'], PyVal.qty (.int 7))]
      blankBrokerOrder (by decide)⟩

/-- C4: for every constructed broker order, `calendar_spread_order` equals
`len(trade) != 1` — false for one leg, true for more — and every operation
of the class (all property setters, the fill application and the
reconciliation operation; there is no setter for the flag itself) leaves
it unchanged. -/
theorem calendar_spread_order_invariant (args : List PyVal)
    (kw : BrokerOrderKwargs) (o : brokerOrder)
    (h : brokerOrder.make args kw = .ok o) :
    o.calendar_spread_order = decide (o.trade.length ≠ 1) ∧
    (o.trade.length = 1 → o.calendar_spread_order = false) ∧
    (o.trade.length ≠ 1 → o.calendar_spread_order = true) ∧
    (∀ v, (o.set_limit_price v).calendar_spread_order
      = o.calendar_spread_order) ∧
    (∀ v, (o.set_submit_datetime v).calendar_spread_order
      = o.calendar_spread_order) ∧
    (∀ v, (o.set_manual_fill v).calendar_spread_order
      = o.calendar_spread_order) ∧
    (∀ v, (o.set_algo_comment v).calendar_spread_order
      = o.calendar_spread_order) ∧
    (∀ v, (o.set_broker_permid v).calendar_spread_order
      = o.calendar_spread_order) ∧
    (∀ v, (o.set_broker_clientid v).calendar_spread_order
      = o.calendar_spread_order) ∧
    (∀ v, (o.set_broker_tempid v).calendar_spread_order
      = o.calendar_spread_order) ∧
    (∀ v, (o.set_commission v).calendar_spread_order
      = o.calendar_spread_order) ∧
    (∀ v, (o.set_leg_filled_price v).calendar_spread_order
      = o.calendar_spread_order) ∧
    (∀ f p dt, (o.fill_order f p dt).calendar_spread_order
      = o.calendar_spread_order) ∧
    (∀ m, ((o.add_execution_details_from_matched_broker_order m).2).calendar_spread_order = o.calendar_spread_order) := by
  obtain ⟨ka, hka, rfl⟩ := make_ok_elim args kw o h
  refine ⟨rfl, fun h1 => ?_, fun h1 => ?_, fun v => rfl, fun v => rfl,
    fun v => rfl, fun v => rfl, fun v => rfl, fun v => rfl, fun v => rfl,
    fun v => rfl, fun v => rfl, fun f p dt => rfl, fun m => ?_⟩
  · simp only [brokerOrder.build] at h1 ⊢
    simp [h1]
  · simp only [brokerOrder.build] at h1 ⊢
    simp [h1]
  · unfold brokerOrder.add_execution_details_from_matched_broker_order
    dsimp only
    split
    · rfl
    · rfl

theorem calendar_spread_order_invariant_witness :
    brokerOrder.make
        [PyVal.str ['s', '/', 'i', '/', '2', '0', '2', '0', '0', '3'],
          PyVal.qty (.int 10)] {} = .ok blankBrokerOrder ∧
    blankBrokerOrder.calendar_spread_order
      = decide (blankBrokerOrder.trade.length ≠ 1) :=
  ⟨by decide,
    (calendar_spread_order_invariant
      [PyVal.str ['s', '/', 'i', '/', '2', '0', '2', '0', '0', '3'],
        PyVal.qty (.int 10)] {} blankBrokerOrder (by decide)).1⟩

/-- C1 (divergence evidence): on a matched order whose per-leg fill fits
the trade, `add_execution_details_from_matched_broker_order` does copy the
fill quantities, the filled price, the fill timestamp and the commission
and returns the success marker, but the order's `leg_filled_price`
afterwards is the Python builtin class object `list` (the property setter
executes `self.order_info["leg_filled_price"] = list`), not the matched
order's per-leg price list. -/
theorem add_execution_details_drops_leg_filled_price :
    (blankBrokerOrder.add_execution_details_from_matched_broker_order
        { blankBrokerOrder with
          fill := [10]
          filled_price := .scalar ((203 : Rat)/2)
          fill_datetime := Option.some 7
          commission := (23 : Rat)/10
          leg_filled_price := .listOfRat [(203 : Rat)/2] }).1
      = ExecResult.success ∧
    (blankBrokerOrder.add_execution_details_from_matched_broker_order
        { blankBrokerOrder with
          fill := [10]
          filled_price := .scalar ((203 : Rat)/2)
          fill_datetime := Option.some 7
          commission := (23 : Rat)/10
          leg_filled_price := .listOfRat [(203 : Rat)/2] }).2
      = { blankBrokerOrder with
          fill := [10]
          filled_price := .scalar ((203 : Rat)/2)
          fill_datetime := Option.some 7
          commission := (23 : Rat)/10
          leg_filled_price := PyObject.builtinListType } ∧
    PyObject.builtinListType ≠ PyObject.listOfRat [(203 : Rat)/2] := by
  refine ⟨rfl, rfl, by decide⟩

/-- C6: for every construction call in which both an explicit (non-empty)
`leg_filled_price` is supplied and the original pre-coercion `filled_price`
is non-scalar (neither a float nor `None`, i.e. a per-leg list), and whose
positional arguments split successfully, construction fails with the
parse-ambiguity error and no order object is produced. -/
theorem make_ambiguous_price_shape_raises (args : List PyVal)
    (kw : BrokerOrderKwargs) (xs : List Rat) (ka0 : brokerOrderKeyArguments)
    (hfp : kw.filled_price = .legs xs)
    (hleg : kw.leg_filled_price ≠ [])
    (hsplit : split_broker_order_args args kw.fill kw.filled_price
      kw.leg_filled_price kw.mid_price kw.side_price kw.offside_price
      = .ok ka0) :
    brokerOrder.make args kw = .error OrderError.parseAmbiguity := by
  have hpass := split_ok_passthrough _ _ _ _ _ _ _ _ hsplit
  have h1 : ka0.resolve_inputs_to_order_with_key_arguments
      = .error OrderError.parseAmbiguity := by
    unfold brokerOrderKeyArguments.resolve_inputs_to_order_with_key_arguments
      calculate_prices_with_possible_legs
    rw [hpass.2.1, hfp, hpass.2.2.1]
    simp [hleg, error_bind]
  unfold brokerOrder.make from_broker_order_args_to_resolved_args
  rw [hsplit, ok_bind, h1, error_bind, error_bind]

theorem make_ambiguous_price_shape_raises_witness :
    (({ filled_price := .legs [(3 : Rat), 4], leg_filled_price := [(5 : Rat)] }
        : BrokerOrderKwargs)).filled_price = .legs [(3 : Rat), 4] ∧
    (({ filled_price := .legs [(3 : Rat), 4], leg_filled_price := [(5 : Rat)] }
        : BrokerOrderKwargs)).leg_filled_price ≠ [] ∧
    brokerOrder.make
        [PyVal.str ['s'], PyVal.str ['i'],
          PyVal.contracts [['2', '0', '2', '0', '0', '3']],
          PyVal.qty (.int 10)]
        { filled_price := .legs [(3 : Rat), 4],
          leg_filled_price := [(5 : Rat)] }
      = .error OrderError.parseAmbiguity :=
  ⟨rfl, by decide,
    make_ambiguous_price_shape_raises
      [PyVal.str ['s'], PyVal.str ['i'],
        PyVal.contracts [['2', '0', '2', '0', '0', '3']],
        PyVal.qty (.int 10)]
      { filled_price := .legs [(3 : Rat), 4], leg_filled_price := [(5 : Rat)] }
      [(3 : Rat), 4]
      ⟨⟨['s'], ['i'], [['2', '0', '2', '0', '0', '3']]⟩, .int 10,
        Option.none, .legs [(3 : Rat), 4], [(5 : Rat)], .none, .none, .none⟩
      rfl (by decide) rfl⟩

/-- C5: for every construction call whose original (pre-coercion)
`filled_price` is a per-leg list (not a scalar, not absent) and whose
`leg_filled_price` is the empty list (not explicitly supplied), a
successful construction yields an order whose `leg_filled_price` equals the
original `filled_price` list element for element, while `filled_price`
itself is the scalar produced by the external price reducer. -/
theorem make_salvages_legacy_leg_prices (args : List PyVal)
    (kw : BrokerOrderKwargs) (xs : List Rat) (ka0 : brokerOrderKeyArguments)
    (o : brokerOrder)
    (hfp : kw.filled_price = .legs xs)
    (hleg : kw.leg_filled_price = [])
    (hsplit : split_broker_order_args args kw.fill kw.filled_price
      kw.leg_filled_price kw.mid_price kw.side_price kw.offside_price
      = .ok ka0)
    (hmk : brokerOrder.make args kw = .ok o) :
    o.leg_filled_price = PyObject.listOfRat xs ∧
      o.filled_price = resolve_multi_leg_price_to_single_price
        ka0.trade.toList (.legs xs) ∧
      ∃ r, o.filled_price = PyPrice.scalar r := by
  have hpass := split_ok_passthrough _ _ _ _ _ _ _ _ hsplit
  obtain ⟨ka, hka, rfl⟩ := make_ok_elim args kw o hmk
  obtain ⟨ka0', ka1, h0, h1, h2⟩ := pipeline_ok_elim _ _ _ _ _ _ _ _ hka
  rw [hsplit] at h0
  cases h0
  have hres : ka1 = ⟨ka0.tradeable_object, ka0.trade.toList,
      (resolve_inputs_to_order ka0.trade ka0.fill (.legs xs)).2.1,
      resolve_multi_leg_price_to_single_price ka0.trade.toList (.legs xs),
      xs,
      resolve_multi_leg_price_to_single_price ka0.trade.toList ka0.mid_price,
      resolve_multi_leg_price_to_single_price ka0.trade.toList ka0.side_price,
      resolve_multi_leg_price_to_single_price ka0.trade.toList
        ka0.offside_price⟩ := by
    unfold brokerOrderKeyArguments.resolve_inputs_to_order_with_key_arguments
      calculate_prices_with_possible_legs at h1
    rw [hpass.2.1, hfp, hpass.2.2.1, hleg] at h1
    simp only [resolve_inputs_to_order, if_pos, ok_bind] at h1
    cases h1
    rfl
  have hpres := sort_ok_preserves_prices ka1 ka h2
  refine ⟨?_, ?_, ?_⟩
  · show PyObject.listOfRat ka.leg_filled_price = PyObject.listOfRat xs
    rw [hpres.2.1, hres]
  · show ka.filled_price = _
    rw [hpres.1, hres]
  · refine ⟨(List.zip ka0.trade.toList xs).foldl
        (fun acc p => acc + (p.1.natAbs : Rat) * p.2) 0 /
      (List.zip ka0.trade.toList xs).foldl
        (fun acc p => acc + (p.1.natAbs : Rat)) 0, ?_⟩
    show ka.filled_price = _
    rw [hpres.1, hres]
    rfl

theorem make_salvages_legacy_leg_prices_witness :
    legacyKw.filled_price = PyPrice.legs [(3 : Rat)] ∧
    legacyKw.leg_filled_price = [] ∧
    split_broker_order_args legacyArgs legacyKw.fill legacyKw.filled_price
      legacyKw.leg_filled_price legacyKw.mid_price legacyKw.side_price
      legacyKw.offside_price = .ok legacyKa0 ∧
    brokerOrder.make legacyArgs legacyKw = .ok legacyOrder ∧
    (legacyOrder.leg_filled_price = PyObject.listOfRat [(3 : Rat)] ∧
      legacyOrder.filled_price = resolve_multi_leg_price_to_single_price
        legacyKa0.trade.toList (.legs [(3 : Rat)]) ∧
      ∃ r, legacyOrder.filled_price = PyPrice.scalar r) :=
  ⟨rfl, rfl, rfl, rfl,
    make_salvages_legacy_leg_prices legacyArgs legacyKw [(3 : Rat)]
      legacyKa0 legacyOrder rfl rfl rfl rfl⟩

/-- C8 (counterexample): a persisted order dictionary from which the
`order_id` key is absent makes `from_dict` fail with a key lookup error
instead of succeeding with the "no id" sentinel. -/
theorem from_dict_missing_order_id_raises :
    brokerOrder.from_dict { exampleOrderDict with order_id := Option.none }
      = .error (OrderError.keyError
        ['o', 'r', 'd', 'e', 'r', '_', 'i', 'd']) := rfl

/-- C8 (amended): for every persisted order dictionary in which
`order_id`, `parent` and `children` are present but stored as Python
`None`, a successful `from_dict` substitutes the defined sentinel values
("no id", "no parent", "no children"), and reconstructs the order type tag
from the stored `order_type` string. -/
theorem from_dict_none_ids_become_sentinels (d : OrderDict) (o : brokerOrder)
    (hid : d.order_id = Option.some Option.none)
    (hpar : d.parent = Option.some Option.none)
    (hch : d.children = Option.some Option.none)
    (hok : brokerOrder.from_dict d = .ok o) :
    o.order_id = OrderIdField.noId ∧ o.parent = ParentField.noParent ∧
      o.children = ChildrenField.noChildren ∧
      o.order_type = brokerOrderType.fromStored
        (d.order_type.getD Option.none) := by
  unfold brokerOrder.from_dict at hok
  obtain ⟨t, ht, hok⟩ := bind_ok_elim _ _ _ hok
  obtain ⟨k, hk, hok⟩ := bind_ok_elim _ _ _ hok
  obtain ⟨f, hf, hok⟩ := bind_ok_elim _ _ _ hok
  obtain ⟨fp, hfp2, hok⟩ := bind_ok_elim _ _ _ hok
  obtain ⟨fd, hfd, hok⟩ := bind_ok_elim _ _ _ hok
  obtain ⟨l, hl, hok⟩ := bind_ok_elim _ _ _ hok
  obtain ⟨oid, hoid, hok⟩ := bind_ok_elim _ _ _ hok
  obtain ⟨par, hparv, hok⟩ := bind_ok_elim _ _ _ hok
  obtain ⟨ch, hchv, hok⟩ := bind_ok_elim _ _ _ hok
  obtain ⟨ac, hac, hok⟩ := bind_ok_elim _ _ _ hok
  rw [hid] at hoid
  rw [hpar] at hparv
  rw [hch] at hchv
  cases hoid
  cases hparv
  cases hchv
  obtain ⟨ka, hka, rfl⟩ := make_ok_elim _ _ _ hok
  exact ⟨rfl, rfl, rfl, rfl⟩

theorem from_dict_none_ids_become_sentinels_witness :
    exampleOrderDict.order_id = Option.some Option.none ∧
    exampleOrderDict.parent = Option.some Option.none ∧
    exampleOrderDict.children = Option.some Option.none ∧
    brokerOrder.from_dict exampleOrderDict = .ok exampleDictOrder ∧
    (exampleDictOrder.order_id = OrderIdField.noId ∧
      exampleDictOrder.parent = ParentField.noParent ∧
      exampleDictOrder.children = ChildrenField.noChildren ∧
      exampleDictOrder.order_type = brokerOrderType.fromStored
        (exampleOrderDict.order_type.getD Option.none)) :=
  ⟨rfl, rfl, rfl, rfl,
    from_dict_none_ids_become_sentinels exampleOrderDict exampleDictOrder
      rfl rfl rfl rfl⟩

/-! Lemmas for the sort pass. -/

theorem get_opt_eq_getD_of_lt {α : Type} (xs : List α) (i : Nat) (d : α)
    (h : i < xs.length) : xs.get? i = Option.some (xs.getD i d) := by
  rw [List.getD_eq_getElem?_getD, List.get?_eq_getElem?,
    List.getElem?_eq_getElem h]
  rfl

theorem applyIdx_eq_map {α : Type} (xs : List α) (d : α) :
    ∀ idx : List Nat, (∀ i ∈ idx, i < xs.length) →
      applyIdx xs idx = Option.some (idx.map (fun i => xs.getD i d))
  | [], _ => rfl
  | i :: is, h => by
    unfold applyIdx
    rw [get_opt_eq_getD_of_lt xs i d (h i (by simp)),
      applyIdx_eq_map xs d is (fun j hj => h j (by simp [hj]))]
    rfl

theorem sortIdx_mem (dates : List (List Char)) (i : Nat)
    (h : i ∈ sortIdxOfDates dates) : i < dates.length := by
  unfold sortIdxOfDates at h
  rw [List.mem_insertionSort] at h
  exact List.mem_range.mp h

theorem sortIdx_length (dates : List (List Char)) :
    (sortIdxOfDates dates).length = dates.length := by
  unfold sortIdxOfDates
  rw [List.length_insertionSort, List.length_range]

/-- C3: for every construction call whose resolved per-leg sequences match
the leg count, one single permutation — derived from the tradeable
object's canonical contract-date ordering — is applied identically to the
trade sequence, the fill sequence, and the tradeable object's leg list,
and after construction all three have equal length (invariant I1). -/
theorem construction_applies_single_permutation (args : List PyVal)
    (kw : BrokerOrderKwargs) (ka0 : brokerOrderKeyArguments)
    (ka1 : resolvedKeyArguments)
    (hsplit : split_broker_order_args args kw.fill kw.filled_price
      kw.leg_filled_price kw.mid_price kw.side_price kw.offside_price
      = .ok ka0)
    (hres : ka0.resolve_inputs_to_order_with_key_arguments = .ok ka1)
    (ht : ka1.trade.length = ka1.tradeable_object.contract_dates.length)
    (hf : ka1.fill.length = ka1.tradeable_object.contract_dates.length) :
    ∃ idx o, idx = ka1.tradeable_object.sort_idx_for_contracts ∧
      brokerOrder.make args kw = .ok o ∧
      o.trade = idx.map (fun i => ka1.trade.getD i 0) ∧
      o.fill = idx.map (fun i => ka1.fill.getD i 0) ∧
      o.tradeable_object.contract_dates
        = idx.map (fun i => ka1.tradeable_object.contract_dates.getD i []) ∧
      o.trade.length = o.tradeable_object.contract_dates.length ∧
      o.fill.length = o.tradeable_object.contract_dates.length := by
  have hmem : ∀ i ∈ ka1.tradeable_object.sort_idx_for_contracts,
      i < ka1.tradeable_object.contract_dates.length :=
    fun i hi => sortIdx_mem _ i hi
  have h1 := applyIdx_eq_map ka1.trade 0
    ka1.tradeable_object.sort_idx_for_contracts
    (fun i hi => ht ▸ hmem i hi)
  have h2 := applyIdx_eq_map ka1.fill 0
    ka1.tradeable_object.sort_idx_for_contracts
    (fun i hi => hf ▸ hmem i hi)
  have h3 := applyIdx_eq_map ka1.tradeable_object.contract_dates []
    ka1.tradeable_object.sort_idx_for_contracts hmem
  have hsort : ka1.sort_inputs_by_contract_date_order = .ok
      { ka1 with
        trade := ka1.tradeable_object.sort_idx_for_contracts.map
          (fun i => ka1.trade.getD i 0)
        fill := ka1.tradeable_object.sort_idx_for_contracts.map
          (fun i => ka1.fill.getD i 0)
        tradeable_object := { ka1.tradeable_object with
          contract_dates := ka1.tradeable_object.sort_idx_for_contracts.map
            (fun i => ka1.tradeable_object.contract_dates.getD i []) } } := by
    unfold resolvedKeyArguments.sort_inputs_by_contract_date_order
      futuresContractStrategy.sort_contracts_with_idx
    dsimp only
    rw [h1, h2, h3]
    rfl
  have hmake : brokerOrder.make args kw = .ok (brokerOrder.build
      { ka1 with
        trade := ka1.tradeable_object.sort_idx_for_contracts.map
          (fun i => ka1.trade.getD i 0)
        fill := ka1.tradeable_object.sort_idx_for_contracts.map
          (fun i => ka1.fill.getD i 0)
        tradeable_object := { ka1.tradeable_object with
          contract_dates := ka1.tradeable_object.sort_idx_for_contracts.map
            (fun i => ka1.tradeable_object.contract_dates.getD i []) } }
      kw) := by
    unfold brokerOrder.make from_broker_order_args_to_resolved_args
    rw [hsplit, ok_bind, hres, ok_bind, hsort, ok_bind]
  refine ⟨ka1.tradeable_object.sort_idx_for_contracts, _, rfl, hmake, rfl,
    rfl, rfl, ?_, ?_⟩
  · simp [brokerOrder.build]
  · simp [brokerOrder.build]

theorem construction_applies_single_permutation_witness :
    split_broker_order_args spreadArgs (({} : BrokerOrderKwargs)).fill
      (({} : BrokerOrderKwargs)).filled_price
      (({} : BrokerOrderKwargs)).leg_filled_price
      (({} : BrokerOrderKwargs)).mid_price
      (({} : BrokerOrderKwargs)).side_price
      (({} : BrokerOrderKwargs)).offside_price = .ok spreadKa0 ∧
    spreadKa0.resolve_inputs_to_order_with_key_arguments = .ok spreadKa1 ∧
    spreadKa1.trade.length
      = spreadKa1.tradeable_object.contract_dates.length ∧
    spreadKa1.fill.length
      = spreadKa1.tradeable_object.contract_dates.length ∧
    (∃ idx o, idx = spreadKa1.tradeable_object.sort_idx_for_contracts ∧
      brokerOrder.make spreadArgs {} = .ok o ∧
      o.trade = idx.map (fun i => spreadKa1.trade.getD i 0) ∧
      o.fill = idx.map (fun i => spreadKa1.fill.getD i 0) ∧
      o.tradeable_object.contract_dates = idx.map
        (fun i => spreadKa1.tradeable_object.contract_dates.getD i []) ∧
      o.trade.length = o.tradeable_object.contract_dates.length ∧
      o.fill.length = o.tradeable_object.contract_dates.length) :=
  ⟨by decide, by decide, by decide, by decide,
    construction_applies_single_permutation spreadArgs {} spreadKa0
      spreadKa1 (by decide) (by decide) (by decide) (by decide)⟩

/-! Lemmas about key-string splitting and joining. -/

theorem splitOnChar_of_not_mem (sep : Char) (s : List Char) (h : sep ∉ s) :
    splitOnChar sep s = [s] := by
  induction s with
  | nil => rfl
  | cons c cs ih =>
    have hc : ¬ c = sep := fun he => h (he ▸ List.mem_cons_self c cs)
    have hcs : sep ∉ cs := fun hm => h (List.mem_cons_of_mem c hm)
    unfold splitOnChar
    dsimp only
    rw [if_neg hc, ih hcs]

theorem splitOnChar_append (sep : Char) (s t : List Char) (h : sep ∉ s) :
    splitOnChar sep (s ++ sep :: t) = s :: splitOnChar sep t := by
  induction s with
  | nil =>
    show splitOnChar sep (sep :: t) = [] :: splitOnChar sep t
    simp only [splitOnChar]
    simp
  | cons c cs ih =>
    have hc : ¬ c = sep := fun he => h (he ▸ List.mem_cons_self c cs)
    have hcs : sep ∉ cs := fun hm => h (List.mem_cons_of_mem c hm)
    show splitOnChar sep (c :: (cs ++ sep :: t))
      = (c :: cs) :: splitOnChar sep t
    simp only [splitOnChar]
    rw [if_neg hc, ih hcs]

theorem splitOnChar_joinSep (sep : Char) :
    ∀ l : List (List Char), l ≠ [] → (∀ x ∈ l, sep ∉ x) →
      splitOnChar sep (joinSep sep l) = l
  | [], hne, _ => absurd rfl hne
  | [x], _, h => splitOnChar_of_not_mem sep x (h x (by simp))
  | x :: y :: t, _, h => by
    show splitOnChar sep (x ++ sep :: joinSep sep (y :: t)) = _
    rw [splitOnChar_append sep x _ (h x (by simp)),
      splitOnChar_joinSep sep (y :: t) (by simp)
        (fun z hz => h z (List.mem_cons_of_mem x hz))]

theorem mem_joinSep (sep : Char) (c : Char) :
    ∀ l : List (List Char), c ∈ joinSep sep l →
      c = sep ∨ ∃ x ∈ l, c ∈ x
  | [], h => absurd h (List.not_mem_nil c)
  | [x], h => Or.inr ⟨x, by simp, h⟩
  | x :: y :: t, h => by
    rw [show joinSep sep (x :: y :: t) = x ++ sep :: joinSep sep (y :: t)
      from rfl, List.mem_append] at h
    rcases h with h | h
    · exact Or.inr ⟨x, by simp, h⟩
    · rcases List.mem_cons.mp h with h | h
      · exact Or.inl h
      · rcases mem_joinSep sep c (y :: t) h with h | ⟨z, hz, hcz⟩
        · exact Or.inl h
        · exact Or.inr ⟨z, List.mem_cons_of_mem x hz, hcz⟩

theorem not_mem_joinSep (sep sep2 : Char) (l : List (List Char))
    (hne : ¬ sep2 = sep) (h : ∀ x ∈ l, sep2 ∉ x) :
    sep2 ∉ joinSep sep l := by
  intro hm
  rcases mem_joinSep sep sep2 l hm with hcontr | ⟨x, hx, hmx⟩
  · exact hne hcontr
  · exact h x hx hmx

/-- Parsing a composite key joined from clean components recovers exactly
those components. -/
theorem from_key_of_components (s i : List Char) (dates : List (List Char))
    (hs : '/' ∉ s) (hi : '/' ∉ i) (hne : dates ≠ [])
    (hd : ∀ d ∈ dates, '/' ∉ d) (hu : ∀ d ∈ dates, '_' ∉ d) :
    futuresContractStrategy.from_key
        (s ++ '/' :: (i ++ '/' :: joinSep '_' dates))
      = .ok ⟨s, i, dates⟩ := by
  have hjoin : '/' ∉ joinSep '_' dates :=
    not_mem_joinSep '_' '/' dates (by decide) hd
  unfold futuresContractStrategy.from_key
  rw [splitOnChar_append '/' s _ hs, splitOnChar_append '/' i _ hi,
    splitOnChar_of_not_mem '/' (joinSep '_' dates) hjoin]
  dsimp only
  rw [splitOnChar_joinSep '_' dates hne hu]

/-- C7: for every order description, the 2-positional-argument form
(composite `strategy/instrument/contracts` key string, trade) and the
4-positional-argument form (strategy, instrument, contract-date list,
trade) with the same keyword fields construct identical orders. -/
theorem make_2arg_4arg_equivalent (strategy instrument : List Char)
    (dates : List (List Char)) (t : QtyInput) (kw : BrokerOrderKwargs)
    (hs : '/' ∉ strategy) (hi : '/' ∉ instrument) (hne : dates ≠ [])
    (hd : ∀ d ∈ dates, '/' ∉ d) (hu : ∀ d ∈ dates, '_' ∉ d) :
    brokerOrder.make
        [.str (strategy ++ '/' :: (instrument ++ '/' :: joinSep '_' dates)),
          .qty t] kw
      = brokerOrder.make
        [.str strategy, .str instrument, .contracts dates, .qty t] kw := by
  have h2 : split_broker_order_args
      [.str (strategy ++ '/' :: (instrument ++ '/' :: joinSep '_' dates)),
        .qty t] kw.fill kw.filled_price kw.leg_filled_price kw.mid_price
      kw.side_price kw.offside_price
      = (futuresContractStrategy.from_key
            (strategy ++ '/' :: (instrument ++ '/' :: joinSep '_' dates))
          >>= fun tob => Except.ok ⟨tob, t, kw.fill, kw.filled_price,
            kw.leg_filled_price, kw.mid_price, kw.side_price,
            kw.offside_price⟩) := rfl
  have hsplit2 : split_broker_order_args
      [.str (strategy ++ '/' :: (instrument ++ '/' :: joinSep '_' dates)),
        .qty t] kw.fill kw.filled_price kw.leg_filled_price kw.mid_price
      kw.side_price kw.offside_price
      = .ok ⟨⟨strategy, instrument, dates⟩, t, kw.fill, kw.filled_price,
        kw.leg_filled_price, kw.mid_price, kw.side_price,
        kw.offside_price⟩ := by
    rw [h2, from_key_of_components strategy instrument dates hs hi hne hd hu,
      ok_bind]
  have hsplit4 : split_broker_order_args
      [.str strategy, .str instrument, .contracts dates, .qty t] kw.fill
      kw.filled_price kw.leg_filled_price kw.mid_price kw.side_price
      kw.offside_price
      = .ok ⟨⟨strategy, instrument, dates⟩, t, kw.fill, kw.filled_price,
        kw.leg_filled_price, kw.mid_price, kw.side_price,
        kw.offside_price⟩ := rfl
  unfold brokerOrder.make from_broker_order_args_to_resolved_args
  rw [hsplit2, hsplit4]

theorem make_2arg_4arg_equivalent_witness :
    ('/' ∉ (['s'] : List Char)) ∧ ('/' ∉ (['i'] : List Char)) ∧
    ([['2', '0', '2', '0', '0', '3'], ['2', '0', '2', '0', '1', '2']]
      : List (List Char)) ≠ [] ∧
    (∀ d ∈ ([['2', '0', '2', '0', '0', '3'], ['2', '0', '2', '0', '1', '2']]
      : List (List Char)), '/' ∉ d) ∧
    (∀ d ∈ ([['2', '0', '2', '0', '0', '3'], ['2', '0', '2', '0', '1', '2']]
      : List (List Char)), '_' ∉ d) ∧
    brokerOrder.make
        [.str (['s'] ++ '/' :: ((['i'] : List Char) ++ '/' :: joinSep '_'
          [['2', '0', '2', '0', '0', '3'], ['2', '0', '2', '0', '1', '2']])),
          .qty (.list [3, -3])] {}
      = brokerOrder.make
        [.str ['s'], .str ['i'],
          .contracts [['2', '0', '2', '0', '0', '3'],
            ['2', '0', '2', '0', '1', '2']],
          .qty (.list [3, -3])] {} :=
  ⟨by decide, by decide, by decide, by decide, by decide,
    make_2arg_4arg_equivalent ['s'] ['i']
      [['2', '0', '2', '0', '0', '3'], ['2', '0', '2', '0', '1', '2']]
      (.list [3, -3]) {} (by decide) (by decide) (by decide) (by decide)
      (by decide)⟩

end BrokerOrders
